import Mathlib

/-!
Verification development for the dART-re acquisition core.

The repository contains two near-duplicate main programs:
  * `src/MyoSensor/MyoLinux/src/main.cpp` (the "Linux" variant, MAC address
    given on the command line, with a separate `reconnect` routine), and
  * `src/MyoSensor/main.cpp` (the "Sensor" variant, auto-connect, inline
    connect-retry loop).

We shallowly embed the connection-resilience core of both programs:
the `ConnectionWatchdog`, the `parse_mac_address` routine, the `reconnect`
routine, the inline connect-retry loop, the acquisition loop with its CSV
writer, the supervisor loop, and the shutdown paths.  External calls on the
device client (`connect`, `disconnect`, `listen`, ...) are driven by
explicit scripts of outcomes; `true` means the call returns normally,
`false` means it throws `std::exception`.  Wall-clock and steady-clock
readings are supplied as explicit parameters in milliseconds.
-/

namespace DartRe

/-! ## Device-facing operations and client state -/

/-- Sleep-mode argument of `setSleepMode` (myo::SleepMode). -/
inductive SleepMode
  | normal
  | neverSleep
deriving DecidableEq, Repr

/-- EMG-mode argument of `setMode` (myo::EmgMode). -/
inductive EmgMode
  | off
  | sendEmg
deriving DecidableEq, Repr

/-- IMU-mode argument of `setMode` (myo::ImuMode). -/
inductive ImuMode
  | off
  | sendData
deriving DecidableEq, Repr

/-- Classifier-mode argument of `setMode` (myo::ClassifierMode). -/
inductive ClassifierMode
  | disabled
  | enabled
deriving DecidableEq, Repr

/-- One observable operation performed on the device client or the clock
during the connect/reconnect routines, recorded in program order. -/
inductive DeviceOp
  | connect
  | disconnect
  | setSleepMode (m : SleepMode)
  | setMode (e : EmgMode) (i : ImuMode) (c : ClassifierMode)
  | delayMs (n : Nat)
deriving DecidableEq, Repr

/-- The device client as the core sees it: only its connected/disconnected
status matters to the control flow. -/
structure Client where
  connected : Bool
deriving DecidableEq, Repr

/-- A client plus the trace of device operations performed so far. -/
structure RunSt where
  client : Client
  trace : List DeviceOp
deriving DecidableEq, Repr

/-- Number of connect attempts recorded in a trace. -/
def connectCount (t : List DeviceOp) : Nat :=
  t.countP (fun o => decide (o = DeviceOp.connect))

/-- Draw the outcome of the next fallible `connect` call from the script.
A missing entry means the call throws (`false`). -/
def nextOutcome : List Bool → Bool × List Bool
  | [] => (false, [])
  | b :: rest => (b, rest)

/-! ## ConnectionWatchdog (identical in both variants)

```cpp
void update() { last_activity = std::chrono::steady_clock::now(); }
bool is_timeout() {
  auto now = std::chrono::steady_clock::now();
  return std::chrono::duration_cast<std::chrono::seconds>(now - last_activity) > timeout;
}
```
Steady-clock instants are modelled as milliseconds (`Nat`); the
`duration_cast` to seconds is the truncating division by 1000. -/

structure ConnectionWatchdog where
  /-- configured threshold, in seconds (60 in both main programs) -/
  timeout : Nat
  /-- last-activity steady-clock instant, in milliseconds -/
  last_activity : Nat
deriving DecidableEq, Repr

def ConnectionWatchdog.update (w : ConnectionWatchdog) (now : Nat) : ConnectionWatchdog :=
  { w with last_activity := now }

def ConnectionWatchdog.is_timeout (w : ConnectionWatchdog) (now : Nat) : Bool :=
  decide (w.timeout < (now - w.last_activity) / 1000)

/-! ## The `reconnect` routine (Linux variant, main.cpp lines 75-112)

```cpp
void reconnect(myo::Client& client, const std::array<unsigned char, 6>& address) {
  const int MAX_RECONNECT_ATTEMPTS = 5;
  const int RECONNECT_DELAY_MS = 10000;
  int reconnect_attempts = 0;
  while (reconnect_attempts < MAX_RECONNECT_ATTEMPTS) {
    try {
      if (client.connected()) {
        client.connect(address, connection_timeout);
        client.setSleepMode(myo::SleepMode::NeverSleep);
        client.setMode(myo::EmgMode::SendEmg, myo::ImuMode::SendData, myo::ClassifierMode::Disabled);
        return;
      }
      client.disconnect();
      std::this_thread::sleep_for(std::chrono::milliseconds(1000));
      client.connect(address, connection_timeout);
    } catch (const std::exception& e) { log; }
    reconnect_attempts++;
    std::this_thread::sleep_for(std::chrono::milliseconds(RECONNECT_DELAY_MS));
  }
  throw std::runtime_error("Unable to reconnect after 5 attempts.");
}
```

The routine never reads the global `stop` flag, so the model takes it as a
parameter that the body does not consult.  `connect` is the modelled
fallible call (its outcome drawn from the script); a failed `connect`
leaves the connection status unchanged.  `disconnect`, `setSleepMode` and
`setMode` are modelled total; in the source an exception from them lands in
the same catch block as a failed `connect`.  The `reconnect_attempts`
counter is mirrored by `fuel = MAX_RECONNECT_ATTEMPTS - attempts`, so
`fuel = 0` is exactly the loop guard `reconnect_attempts < 5` failing. -/

def MAX_RECONNECT_ATTEMPTS : Nat := 5
def RECONNECT_DELAY_MS : Nat := 10000

inductive ReconnectResult
  | ok
  /-- the `throw std::runtime_error("Unable to reconnect ...")` after the loop -/
  | exhausted
deriving DecidableEq, Repr

structure ReconnectOut where
  result : ReconnectResult
  state : RunSt
  /-- value of `reconnect_attempts` when the routine ends -/
  attemptsUsed : Nat
deriving DecidableEq, Repr

def reconnectGo (stop : Bool) : Nat → Nat → RunSt → List Bool → ReconnectOut
  | 0, attempts, st, _ => ⟨.exhausted, st, attempts⟩
  | fuel + 1, attempts, st, script =>
    if st.client.connected then
      match nextOutcome script with
      | (true, _rest) =>
        -- connect succeeded: reapply configuration and return success
        ⟨.ok,
          { st with trace := st.trace ++
              [.connect, .setSleepMode .neverSleep,
               .setMode .sendEmg .sendData .disabled] },
          attempts⟩
      | (false, rest) =>
        -- connect threw: caught, counted, backoff, next iteration
        reconnectGo stop fuel (attempts + 1)
          { st with trace := st.trace ++ [.connect, .delayMs RECONNECT_DELAY_MS] } rest
    else
      match nextOutcome script with
      | (ok, rest) =>
        -- disconnect, wait 1000 ms, connect (success sets connected; a throw
        -- is caught); either way fall through to attempts++ and the backoff
        reconnectGo stop fuel (attempts + 1)
          { client := ⟨ok⟩,
            trace := st.trace ++
              [.disconnect, .delayMs 1000, .connect, .delayMs RECONNECT_DELAY_MS] } rest

def reconnect (stop : Bool) (cl : Client) (script : List Bool) : ReconnectOut :=
  reconnectGo stop MAX_RECONNECT_ATTEMPTS 0 ⟨cl, []⟩ script

/-! ## The inline connect-retry loop (Sensor variant, main.cpp lines 79-98)

```cpp
int reconnect_attempts = 0;
while (!client.connected() && reconnect_attempts < MAX_RECONNECT_ATTEMPTS && !stop) {
  try {
    client.connect();
    if (client.connected()) { log; break; }
  } catch (const std::exception& e) { log; }
  reconnect_attempts++;
  std::this_thread::sleep_for(std::chrono::milliseconds(RECONNECT_DELAY_MS));  // 5000
}
if (!client.connected()) { log; return 1; }
```
Note the `break` on success skips the `reconnect_attempts++`. -/

def SENSOR_MAX_RECONNECT_ATTEMPTS : Nat := 5
def SENSOR_RECONNECT_DELAY_MS : Nat := 5000

def connectLoopGo (stop : Bool) : Nat → RunSt → List Bool → RunSt
  | 0, st, _ => st
  | fuel + 1, st, script =>
    if st.client.connected || stop then st
    else
      match nextOutcome script with
      | (true, _rest) =>
        -- connect succeeded, connected() is now true: break
        { client := ⟨true⟩, trace := st.trace ++ [.connect] }
      | (false, rest) =>
        -- connect threw: caught, counted, delay, next iteration
        connectLoopGo stop fuel
          { st with trace := st.trace ++ [.connect, .delayMs SENSOR_RECONNECT_DELAY_MS] } rest

/-- The whole connect phase of the Sensor variant: the retry loop followed by
`if (!client.connected()) return 1`.  The first component is `some 1` when
main returns exit status 1 at this point, `none` when execution proceeds. -/
def sensorConnectPhase (stop : Bool) (cl : Client) (script : List Bool) :
    Option Nat × RunSt :=
  let st := connectLoopGo stop SENSOR_MAX_RECONNECT_ATTEMPTS ⟨cl, []⟩ script
  if st.client.connected then (none, st) else (some 1, st)

end DartRe

namespace DartRe

/-! ## Helper lemmas about the reconnect loop -/

theorem connectCount_append (t u : List DeviceOp) :
    connectCount (t ++ u) = connectCount t + connectCount u := by
  simp [connectCount, List.countP_append]

theorem reconnectGo_connectCount_le (stop : Bool) :
    ∀ fuel attempts st script,
      connectCount (reconnectGo stop fuel attempts st script).state.trace ≤
        connectCount st.trace + fuel := by
  intro fuel
  induction fuel with
  | zero => intro attempts st script; simp [reconnectGo]
  | succ n ih =>
    intro attempts st script
    rcases h : nextOutcome script with ⟨b, rest⟩
    by_cases hc : st.client.connected
    · cases b
      · have := ih (attempts + 1)
          { st with trace := st.trace ++ [.connect, .delayMs RECONNECT_DELAY_MS] } rest
        simp only [reconnectGo, hc, if_true, h] at *
        simp only [connectCount_append] at this
        have hone : connectCount [DeviceOp.connect, .delayMs RECONNECT_DELAY_MS] = 1 := by decide
        omega
      · simp only [reconnectGo, hc, if_true, h, connectCount_append]
        have hone : connectCount
            [DeviceOp.connect, .setSleepMode .neverSleep,
             .setMode .sendEmg .sendData .disabled] = 1 := by decide
        omega
    · have := ih (attempts + 1)
        { client := ⟨b⟩,
          trace := st.trace ++
            [.disconnect, .delayMs 1000, .connect, .delayMs RECONNECT_DELAY_MS] } rest
      simp only [reconnectGo, hc, if_false, h, Bool.false_eq_true] at *
      simp only [connectCount_append] at this
      have hone : connectCount
          [DeviceOp.disconnect, .delayMs 1000, .connect, .delayMs RECONNECT_DELAY_MS] = 1 := by
        decide
      omega

theorem reconnectGo_attempts_le (stop : Bool) :
    ∀ fuel attempts st script,
      (reconnectGo stop fuel attempts st script).attemptsUsed ≤ attempts + fuel := by
  intro fuel
  induction fuel with
  | zero => intro attempts st script; simp [reconnectGo]
  | succ n ih =>
    intro attempts st script
    rcases h : nextOutcome script with ⟨b, rest⟩
    by_cases hc : st.client.connected
    · cases b
      · have := ih (attempts + 1)
          { st with trace := st.trace ++ [.connect, .delayMs RECONNECT_DELAY_MS] } rest
        simp only [reconnectGo, hc, if_true, h] at *
        omega
      · simp only [reconnectGo, hc, if_true, h]
        omega
    · have := ih (attempts + 1)
        { client := ⟨b⟩,
          trace := st.trace ++
            [.disconnect, .delayMs 1000, .connect, .delayMs RECONNECT_DELAY_MS] } rest
      simp only [reconnectGo, hc, if_false, h, Bool.false_eq_true] at *
      omega

theorem reconnectGo_ok_config (stop : Bool) :
    ∀ fuel attempts st script,
      (reconnectGo stop fuel attempts st script).result = .ok →
      ∃ pre, (reconnectGo stop fuel attempts st script).state.trace =
        pre ++ [DeviceOp.connect, .setSleepMode .neverSleep,
                .setMode .sendEmg .sendData .disabled] := by
  intro fuel
  induction fuel with
  | zero => intro attempts st script hok; simp [reconnectGo] at hok
  | succ n ih =>
    intro attempts st script hok
    rcases h : nextOutcome script with ⟨b, rest⟩
    by_cases hc : st.client.connected
    · cases b
      · simp only [reconnectGo, hc, if_true, h] at hok ⊢
        exact ih _ _ _ hok
      · simp only [reconnectGo, hc, if_true, h] at hok ⊢
        exact ⟨st.trace, rfl⟩
    · simp only [reconnectGo, hc, if_false, h, Bool.false_eq_true] at hok ⊢
      exact ih _ _ _ hok

end DartRe

namespace DartRe

/-- C1: in every run of the `reconnect` routine the attempt counter and the
number of connect attempts stay at or below the configured maximum of 5;
with five consecutive connect failures (empty script: every drawn outcome
throws) the routine ends in the terminal `exhausted` error after exactly 5
connect attempts, making no 6th; likewise the Sensor variant's inline
connect-retry loop makes exactly 5 attempts before reporting terminal
failure. -/
theorem c1_reconnect_attempts_bounded :
    (∀ stop cl script,
        connectCount (reconnect stop cl script).state.trace ≤ MAX_RECONNECT_ATTEMPTS ∧
        (reconnect stop cl script).attemptsUsed ≤ MAX_RECONNECT_ATTEMPTS) ∧
    ((reconnect false ⟨false⟩ []).result = .exhausted ∧
      connectCount (reconnect false ⟨false⟩ []).state.trace = 5 ∧
      (reconnect false ⟨false⟩ []).attemptsUsed = 5) ∧
    ((sensorConnectPhase false ⟨false⟩ []).1 = some 1 ∧
      connectCount (sensorConnectPhase false ⟨false⟩ []).2.trace = 5) := by
  refine ⟨fun stop cl script => ⟨?_, ?_⟩, by decide, by decide⟩
  · have := reconnectGo_connectCount_le stop MAX_RECONNECT_ATTEMPTS 0 ⟨cl, []⟩ script
    simpa [reconnect, connectCount] using this
  · have := reconnectGo_attempts_le stop MAX_RECONNECT_ATTEMPTS 0 ⟨cl, []⟩ script
    simpa [reconnect] using this

/-- C3 counterexample: the claim says `is_timeout` becomes true as soon as
the elapsed time since the last `update` exceeds the threshold (60 s), but
at 60500 ms elapsed — which exceeds 60000 ms — the code still reports
false, because `duration_cast` truncates to whole seconds before the
strict comparison. -/
theorem c3_watchdog_counterexample :
    ((ConnectionWatchdog.mk 60 0).update 0).is_timeout 60500 = false ∧
      60 * 1000 < 60500 - 0 := by decide

/-- C3 amended: immediately after `update()` the watchdog reports false;
a later query reports true iff the elapsed time since the last update,
truncated to whole seconds, exceeds the threshold T — equivalently iff at
least (T+1) full seconds have elapsed. -/
theorem c3_watchdog_amended (w : ConnectionWatchdog) (t now : Nat) :
    (w.update t).is_timeout t = false ∧
    ((w.update t).is_timeout now = true ↔ (w.timeout + 1) * 1000 ≤ now - t) := by
  constructor
  · simp [ConnectionWatchdog.update, ConnectionWatchdog.is_timeout]
  · simp only [ConnectionWatchdog.update, ConnectionWatchdog.is_timeout, decide_eq_true_eq]
    rw [Nat.lt_iff_add_one_le, Nat.le_div_iff_mul_le (by norm_num : 0 < 1000)]

/-- C4: whenever the `reconnect` routine reports success, the last
operations it performed are a connect immediately followed by
`setSleepMode(NeverSleep)` and `setMode(SendEmg, SendData, Disabled)`:
the device configuration is reapplied after the final connect attempt and
before success is reported. -/
theorem c4_reconnect_reapplies_config (stop : Bool) (cl : Client) (script : List Bool)
    (hok : (reconnect stop cl script).result = .ok) :
    ∃ pre, (reconnect stop cl script).state.trace =
      pre ++ [DeviceOp.connect, .setSleepMode .neverSleep,
              .setMode .sendEmg .sendData .disabled] :=
  reconnectGo_ok_config stop MAX_RECONNECT_ATTEMPTS 0 ⟨cl, []⟩ script hok

theorem c4_reconnect_reapplies_config_witness :
    ∃ pre, (reconnect false ⟨true⟩ [true]).state.trace =
      pre ++ [DeviceOp.connect, .setSleepMode .neverSleep,
              .setMode .sendEmg .sendData .disabled] :=
  c4_reconnect_reapplies_config false ⟨true⟩ [true] (by decide)

/-- C8: a connect call that throws inside the retry loop is caught and
counted as exactly one failed attempt, and the loop proceeds: after k ≤ 3
consecutive connect exceptions the `reconnect` routine still reaches
success (needing k failed attempts plus the two connects of its success
path), and after k ≤ 4 exceptions the Sensor variant's inline loop still
connects on attempt k+1 and proceeds without exiting. -/
theorem c8_connect_exception_counted_once :
    (∀ k : Nat, k ≤ 3 →
      (reconnect false ⟨false⟩ (List.replicate k false ++ [true, true])).result = .ok ∧
      (reconnect false ⟨false⟩ (List.replicate k false ++ [true, true])).attemptsUsed = k + 1 ∧
      connectCount
        (reconnect false ⟨false⟩ (List.replicate k false ++ [true, true])).state.trace
        = k + 2) ∧
    (∀ k : Nat, k ≤ 4 →
      (sensorConnectPhase false ⟨false⟩ (List.replicate k false ++ [true])).1 = none ∧
      connectCount
        (sensorConnectPhase false ⟨false⟩ (List.replicate k false ++ [true])).2.trace
        = k + 1) := by
  constructor
  · intro k hk
    interval_cases k <;> exact (by decide)
  · intro k hk
    interval_cases k <;> exact (by decide)

theorem c8_connect_exception_counted_once_witness :
    ((reconnect false ⟨false⟩ (List.replicate 3 false ++ [true, true])).result = .ok ∧
      (reconnect false ⟨false⟩ (List.replicate 3 false ++ [true, true])).attemptsUsed = 3 + 1 ∧
      connectCount
        (reconnect false ⟨false⟩ (List.replicate 3 false ++ [true, true])).state.trace
        = 3 + 2) ∧
    ((sensorConnectPhase false ⟨false⟩ (List.replicate 4 false ++ [true])).1 = none ∧
      connectCount
        (sensorConnectPhase false ⟨false⟩ (List.replicate 4 false ++ [true])).2.trace
        = 4 + 1) :=
  ⟨c8_connect_exception_counted_once.1 3 (by decide),
   c8_connect_exception_counted_once.2 4 (by decide)⟩

/-- C10: a connect that succeeds while the session was disconnected does
not end the `reconnect` routine on that iteration: the attempt counter is
still incremented and the backoff delay still runs, and success only comes
on a later iteration through the already-connected branch, which issues a
second connect before the configuration calls.  In particular a connect
succeeding on the 5th iteration still ends in the exhaustion error with
the session connected. -/
theorem c10_disconnected_success_not_immediate :
    ((reconnect false ⟨false⟩ [false, false, false, false, true]).result = .exhausted ∧
      (reconnect false ⟨false⟩ [false, false, false, false, true]).state.client.connected
        = true ∧
      (reconnect false ⟨false⟩ [false, false, false, false, true]).attemptsUsed = 5) ∧
    ((reconnect false ⟨false⟩ [true, true]).result = .ok ∧
      (reconnect false ⟨false⟩ [true, true]).attemptsUsed = 1 ∧
      (reconnect false ⟨false⟩ [true, true]).state.trace =
        [.disconnect, .delayMs 1000, .connect, .delayMs RECONNECT_DELAY_MS,
         .connect, .setSleepMode .neverSleep,
         .setMode .sendEmg .sendData .disabled]) := by
  decide

/-- C5 counterexample: the `reconnect` routine's retry loop does not check
the stop flag: run with the stop flag set (and a permanently failing
connect), it still performs 5 connect attempts instead of starting none. -/
theorem c5_reconnect_ignores_stop_counterexample :
    connectCount (reconnect true ⟨false⟩ []).state.trace = 5 ∧
      (reconnect true ⟨false⟩ []).state.trace ≠ [] := by
  decide

end DartRe

namespace DartRe

/-! ## parse_mac_address (Linux variant, main.cpp lines 59-72)

```cpp
std::array<unsigned char, 6> parse_mac_address(const std::string& mac_str) {
  std::array<unsigned char, 6> address;
  std::istringstream ss(mac_str);
  std::string octet;
  for (int i = 0; i < 6; ++i) {
    if (!std::getline(ss, octet, ':')) {
      throw std::runtime_error("Invalid MAC address format");
    }
    address[i] = static_cast<unsigned char>(std::stoi(octet, nullptr, 16));
  }
  return address;
}
```

`std::getline(ss, octet, ':')` fails exactly when the stream has no
characters left (after a field delimited by `':'` the stream position is
just past the colon, so a field with no trailing colon leaves the stream
empty); an empty field between two colons extracts the delimiter and
succeeds with an empty string.  `std::stoi(octet, nullptr, 16)` skips
C-locale whitespace, accepts one optional sign and an optional `0x`/`0X`
prefix (the prefix only when a hex digit follows; otherwise the leading
`0` alone is the parsed number), converts the maximal run of hex digits,
throws if no digit was converted or if the value is outside `int` range,
and ignores any trailing characters.  The `static_cast<unsigned char>`
reduces the resulting `int` modulo 256. -/

/-- C-locale `isspace`: space (32) and `\t \n \v \f \r` (9-13). -/
def isSpaceC (c : Char) : Bool :=
  c.toNat = 32 || (9 ≤ c.toNat && c.toNat ≤ 13)

/-- Hexadecimal digit: `0-9`, `a-f`, `A-F`. -/
def isHexDigit (c : Char) : Bool :=
  (48 ≤ c.toNat && c.toNat ≤ 57) ||
  (97 ≤ c.toNat && c.toNat ≤ 102) ||
  (65 ≤ c.toNat && c.toNat ≤ 70)

/-- Value of a hexadecimal digit. -/
def hexVal (c : Char) : Nat :=
  if c.toNat ≤ 57 then c.toNat - 48
  else if c.toNat ≤ 70 then c.toNat - 55
  else c.toNat - 87

/-- Value of the maximal hex-digit prefix, accumulating left to right. -/
def hexPrefixVal : List Char → Nat → Nat
  | [], acc => acc
  | c :: cs, acc =>
    if isHexDigit c then hexPrefixVal cs (acc * 16 + hexVal c) else acc

/-- One optional leading `+`/`-` sign, as consumed by `strtol`. -/
def stripSign : List Char → Bool × List Char
  | [] => (false, [])
  | c :: r =>
    if c = '-' then (true, r)
    else if c = '+' then (false, r)
    else (false, c :: r)

/-- The optional `0x`/`0X` prefix, consumed only when a hex digit follows. -/
def stripHexPrefix : List Char → List Char
  | c0 :: c1 :: c2 :: r =>
    if c0 = '0' ∧ (c1 = 'x' ∨ c1 = 'X') ∧ isHexDigit c2 then c2 :: r
    else c0 :: c1 :: c2 :: r
  | s => s

/-- Convert the number part: fails (`none` models the `std::invalid_argument`
or `std::out_of_range` exception) when no hex digit starts the body or the
signed value falls outside the `int` range. -/
def stoi16core (neg : Bool) (body : List Char) : Option Int :=
  match body with
  | [] => none
  | c :: _ =>
    if isHexDigit c then
      let n : Int := (hexPrefixVal body 0 : Nat)
      let v : Int := if neg then -n else n
      if 2147483647 < v ∨ v < -2147483648 then none else some v
    else none

/-- `std::stoi(s, nullptr, 16)`. -/
def stoi16 (s : List Char) : Option Int :=
  stoi16core (stripSign (s.dropWhile isSpaceC)).1
    (stripHexPrefix (stripSign (s.dropWhile isSpaceC)).2)

/-- `std::getline(ss, octet, ':')` on the remaining stream contents:
fails iff nothing is left; otherwise yields the field before the first
colon and the contents after it (everything, with the colon consumed, or
the empty remainder when the field ran to the end of the stream). -/
def getlineColon : List Char → Option (List Char × List Char)
  | [] => none
  | c :: cs =>
    match (c :: cs).dropWhile (fun x => x != ':') with
    | [] => some ((c :: cs).takeWhile (fun x => x != ':'), [])
    | _ :: rest => some ((c :: cs).takeWhile (fun x => x != ':'), rest)

/-- One loop iteration: `getline` then `stoi` then the cast to
`unsigned char` (reduction mod 256). -/
def parseOctet (s : List Char) : Option Nat :=
  (stoi16 s).map (fun v => (v % 256).toNat)

def parse_mac_address_go : Nat → List Char → List Nat → Option (List Nat)
  | 0, _, acc => some acc.reverse
  | i + 1, s, acc =>
    match getlineColon s with
    | none => none
    | some (octet, rest) =>
      match parseOctet octet with
      | none => none
      | some b => parse_mac_address_go i rest (b :: acc)

/-- The whole routine: six iterations; `none` models the thrown exception. -/
def parse_mac_address (s : List Char) : Option (List Nat) :=
  parse_mac_address_go 6 s []

/-- `catch` around `parse_mac_address` in main (lines 131-136): a parse
failure makes the process return exit status 1. -/
def linuxMacStage (s : List Char) : Except Nat (List Nat) :=
  match parse_mac_address s with
  | some a => .ok a
  | none => .error 1

/-- The colon-separated fields of a string (used to state validity; the
empty string has one empty field). -/
def splitColon : List Char → List (List Char)
  | [] => [[]]
  | c :: cs =>
    if c = ':' then [] :: splitColon cs
    else
      match splitColon cs with
      | [] => [[c]]
      | f :: fs => (c :: f) :: fs

/-- A canonical hexadecimal octet: one or two hex digits. -/
def validOctet (o : List Char) : Prop :=
  o ≠ [] ∧ o.length ≤ 2 ∧ ∀ c ∈ o, isHexDigit c = true

instance : DecidablePred validOctet := fun o => by
  unfold validOctet; infer_instance

/-- The numeric value of an all-hex-digit field. -/
def octetVal (o : List Char) : Nat := hexPrefixVal o 0

/-- A well-formed device address string: exactly six colon-separated
fields, each a canonical hexadecimal octet. -/
def isValidMacStr (s : List Char) : Bool :=
  decide ((splitColon s).length = 6 ∧ ∀ o ∈ splitColon s, validOctet o)

/-- Six octets joined by colons. -/
def renderMac : List (List Char) → List Char
  | [] => []
  | [o] => o
  | o :: os => o ++ ':' :: renderMac os

end DartRe

namespace DartRe

/-! ## Character and list helper lemmas for the MAC parser -/

theorem isHexDigit_toNat {c : Char} (h : isHexDigit c = true) :
    (48 ≤ c.toNat ∧ c.toNat ≤ 57) ∨ (97 ≤ c.toNat ∧ c.toNat ≤ 102) ∨
      (65 ≤ c.toNat ∧ c.toNat ≤ 70) := by
  have h2 := h
  simp only [isHexDigit, Bool.or_eq_true, Bool.and_eq_true, decide_eq_true_eq] at h2
  tauto

theorem hex_not_space {c : Char} (h : isHexDigit c = true) : isSpaceC c = false := by
  have h1 := isHexDigit_toNat h
  cases hs : isSpaceC c with
  | false => rfl
  | true =>
    exfalso
    have h2 : c.toNat = 32 ∨ (9 ≤ c.toNat ∧ c.toNat ≤ 13) := by
      simpa [isSpaceC, Bool.or_eq_true, Bool.and_eq_true, decide_eq_true_eq] using hs
    omega

theorem hex_ne_dash {c : Char} (h : isHexDigit c = true) : ¬c = '-' := by
  intro he; rw [he] at h; exact absurd h (by decide)

theorem hex_ne_plus {c : Char} (h : isHexDigit c = true) : ¬c = '+' := by
  intro he; rw [he] at h; exact absurd h (by decide)

theorem hex_bne_colon {c : Char} (h : isHexDigit c = true) : (c != ':') = true := by
  simp only [bne_iff_ne, ne_eq]
  intro he; rw [he] at h; exact absurd h (by decide)

theorem hexVal_lt {c : Char} (h : isHexDigit c = true) : hexVal c < 16 := by
  have := isHexDigit_toNat h
  unfold hexVal
  split_ifs <;> omega

theorem length_dropWhile_le' (p : Char → Bool) (l : List Char) :
    (l.dropWhile p).length ≤ l.length := by
  induction l with
  | nil => simp
  | cons a l ih =>
    rw [List.dropWhile_cons]
    split_ifs
    · exact le_trans ih (by simp)
    · simp

theorem takeWhile_append_colon (o rest : List Char)
    (h : ∀ c ∈ o, (c != ':') = true) :
    (o ++ ':' :: rest).takeWhile (fun x => x != ':') = o := by
  induction o with
  | nil => simp [List.takeWhile_cons]
  | cons c o ih =>
    have hc := h c (List.mem_cons_self ..)
    simp only [List.cons_append, List.takeWhile_cons, hc, if_true, List.cons.injEq, true_and]
    exact ih (fun d hd => h d (List.mem_cons_of_mem _ hd))

theorem dropWhile_append_colon (o rest : List Char)
    (h : ∀ c ∈ o, (c != ':') = true) :
    (o ++ ':' :: rest).dropWhile (fun x => x != ':') = ':' :: rest := by
  induction o with
  | nil => simp [List.dropWhile_cons]
  | cons c o ih =>
    have hc := h c (List.mem_cons_self ..)
    simp only [List.cons_append, List.dropWhile_cons, hc, if_true]
    exact ih (fun d hd => h d (List.mem_cons_of_mem _ hd))

theorem takeWhile_all_of_ne_colon (o : List Char)
    (h : ∀ c ∈ o, (c != ':') = true) :
    o.takeWhile (fun x => x != ':') = o := by
  induction o with
  | nil => simp
  | cons c o ih =>
    have hc := h c (List.mem_cons_self ..)
    simp only [List.takeWhile_cons, hc, if_true, List.cons.injEq, true_and]
    exact ih (fun d hd => h d (List.mem_cons_of_mem _ hd))

theorem dropWhile_all_of_ne_colon (o : List Char)
    (h : ∀ c ∈ o, (c != ':') = true) :
    o.dropWhile (fun x => x != ':') = [] := by
  induction o with
  | nil => simp
  | cons c o ih =>
    have hc := h c (List.mem_cons_self ..)
    simp only [List.dropWhile_cons, hc, if_true]
    exact ih (fun d hd => h d (List.mem_cons_of_mem _ hd))

theorem getlineColon_append (o rest : List Char)
    (h : ∀ c ∈ o, (c != ':') = true) :
    getlineColon (o ++ ':' :: rest) = some (o, rest) := by
  have hd := dropWhile_append_colon o rest h
  have ht := takeWhile_append_colon o rest h
  cases o with
  | nil => simp only [List.nil_append] at hd ht ⊢; simp [getlineColon, hd, ht]
  | cons c o' => simp only [List.cons_append] at hd ht ⊢; simp [getlineColon, hd, ht]

theorem getlineColon_last (o : List Char) (hne : o ≠ [])
    (h : ∀ c ∈ o, (c != ':') = true) :
    getlineColon o = some (o, []) := by
  have hd := dropWhile_all_of_ne_colon o h
  have ht := takeWhile_all_of_ne_colon o h
  cases o with
  | nil => exact absurd rfl hne
  | cons c o' => simp [getlineColon, hd, ht]

theorem parse_go_step (i : Nat) (o s : List Char) (acc : List Nat) (v : Nat)
    (h : ∀ c ∈ o, (c != ':') = true) (hv : parseOctet o = some v) :
    parse_mac_address_go (i + 1) (o ++ ':' :: s) acc =
      parse_mac_address_go i s (v :: acc) := by
  simp [parse_mac_address_go, getlineColon_append o s h, hv]

theorem parse_go_last (i : Nat) (o : List Char) (acc : List Nat) (v : Nat)
    (hne : o ≠ []) (h : ∀ c ∈ o, (c != ':') = true) (hv : parseOctet o = some v) :
    parse_mac_address_go (i + 1) o acc = parse_mac_address_go i [] (v :: acc) := by
  simp [parse_mac_address_go, getlineColon_last o hne h, hv]

theorem parse_go_nil_none (i : Nat) (acc : List Nat) :
    parse_mac_address_go (i + 1) [] acc = none := by
  simp [parse_mac_address_go, getlineColon]

end DartRe

namespace DartRe

theorem hexPrefixVal_pair (c d : Char) (hc : isHexDigit c = true)
    (hd : isHexDigit d = true) :
    hexPrefixVal [c, d] 0 = hexVal c * 16 + hexVal d := by
  simp [hexPrefixVal, hc, hd]

theorem stoi16_hex_cons (c : Char) (r : List Char) (hc : isHexDigit c = true)
    (hall : ∀ x ∈ c :: r, isHexDigit x = true)
    (hb : hexPrefixVal (c :: r) 0 ≤ 2147483647) :
    stoi16 (c :: r) = some ((hexPrefixVal (c :: r) 0 : Nat) : Int) := by
  have hdw : (c :: r).dropWhile isSpaceC = c :: r := by
    rw [List.dropWhile_cons, hex_not_space hc]
    simp
  have hss : stripSign (c :: r) = (false, c :: r) := by
    simp [stripSign, hex_ne_dash hc, hex_ne_plus hc]
  have hsp : stripHexPrefix (c :: r) = c :: r := by
    match r with
    | [] => rfl
    | [c1] => rfl
    | c1 :: c2 :: r' =>
      have hc1 : isHexDigit c1 = true := hall c1 (by simp)
      simp only [stripHexPrefix]
      rw [if_neg]
      rintro ⟨_, h1, _⟩
      rcases h1 with h1 | h1 <;> rw [h1] at hc1 <;> exact absurd hc1 (by decide)
  rw [stoi16, hdw, hss]
  simp only [hsp]
  simp only [stoi16core, hc, if_true]
  rw [if_neg]
  · simp
  · push_cast
    omega

theorem stoi16_valid (o : List Char) (ho : validOctet o) :
    stoi16 o = some ((octetVal o : Nat) : Int) ∧ octetVal o < 256 := by
  obtain ⟨hne, hlen, hhex⟩ := ho
  match o with
  | [] => exact absurd rfl hne
  | [c] =>
    have hc := hhex c (by simp)
    have hlt := hexVal_lt hc
    have hval : octetVal [c] = hexVal c := by simp [octetVal, hexPrefixVal, hc]
    refine ⟨stoi16_hex_cons c [] hc hhex ?_, ?_⟩ <;>
      simp only [octetVal] at * <;> omega
  | [c, d] =>
    have hc := hhex c (by simp)
    have hd := hhex d (by simp)
    have hltc := hexVal_lt hc
    have hltd := hexVal_lt hd
    have hval : octetVal [c, d] = hexVal c * 16 + hexVal d :=
      hexPrefixVal_pair c d hc hd
    refine ⟨stoi16_hex_cons c [d] hc hhex ?_, ?_⟩ <;>
      simp only [octetVal] at * <;> omega
  | c :: d :: e :: r => simp at hlen

theorem parseOctet_valid {o : List Char} (h : validOctet o) :
    parseOctet o = some (octetVal o) := by
  obtain ⟨h1, h2⟩ := stoi16_valid o h
  simp only [parseOctet, h1]
  have : ((octetVal o : Nat) : Int) % 256 = ((octetVal o : Nat) : Int) :=
    Int.emod_eq_of_lt (by positivity) (by exact_mod_cast h2)
  simp [this]

theorem validOctet_ne_colon {o : List Char} (h : validOctet o) :
    ∀ c ∈ o, (c != ':') = true :=
  fun c hc => hex_bne_colon (h.2.2 c hc)

/-! ## splitColon structure lemmas -/

theorem splitColon_ne_nil (s : List Char) : splitColon s ≠ [] := by
  induction s with
  | nil => simp [splitColon]
  | cons c cs ih =>
    by_cases hc : c = ':'
    · simp [splitColon, hc]
    · simp only [splitColon, hc, if_false]
      cases h : splitColon cs with
      | nil => simp
      | cons f fs => simp

theorem splitColon_cons_of_dropWhile (s : List Char) (x : Char) (rest : List Char)
    (h : s.dropWhile (fun c => c != ':') = x :: rest) :
    splitColon s = s.takeWhile (fun c => c != ':') :: splitColon rest := by
  induction s with
  | nil => simp at h
  | cons c cs ih =>
    by_cases hc : c = ':'
    · subst hc
      rw [List.dropWhile_cons] at h
      simp only [bne_self_eq_false, if_false] at h
      obtain ⟨hx, hr⟩ := List.cons.inj h
      subst hr
      simp [splitColon, List.takeWhile_cons]
    · have hcb : (c != ':') = true := by simp [bne_iff_ne, hc]
      rw [List.dropWhile_cons, if_pos hcb] at h
      have hrec := ih h
      simp only [splitColon, hc, if_false, hrec, List.takeWhile_cons, hcb, if_true]

theorem splitColon_single_of_dropWhile (s : List Char)
    (h : s.dropWhile (fun c => c != ':') = []) :
    (splitColon s).length = 1 := by
  induction s with
  | nil => simp [splitColon]
  | cons c cs ih =>
    by_cases hc : c = ':'
    · subst hc
      rw [List.dropWhile_cons] at h
      simp at h
    · have hcb : (c != ':') = true := by simp [bne_iff_ne, hc]
      rw [List.dropWhile_cons, if_pos hcb] at h
      have hlen := ih h
      simp only [splitColon, hc, if_false]
      cases hsc : splitColon cs with
      | nil => exact absurd hsc (splitColon_ne_nil cs)
      | cons f fs =>
        rw [hsc] at hlen
        simp only [List.length_cons] at hlen ⊢
        omega

end DartRe

namespace DartRe

theorem parse_go_none_of_fields_lt :
    ∀ n (s : List Char) (i : Nat) (acc : List Nat), s.length ≤ n →
      (splitColon s).length < i → parse_mac_address_go i s acc = none := by
  intro n
  induction n with
  | zero =>
    intro s i acc hlen hf
    have hs : s = [] := List.length_eq_zero.mp (Nat.le_zero.mp hlen)
    subst hs
    have h1 : (splitColon ([] : List Char)).length = 1 := by simp [splitColon]
    rw [h1] at hf
    obtain ⟨i', rfl⟩ : ∃ i', i = i' + 1 := ⟨i - 1, by omega⟩
    exact parse_go_nil_none i' acc
  | succ n ih =>
    intro s i acc hlen hf
    have hne1 : 1 ≤ (splitColon s).length := by
      have h := splitColon_ne_nil s
      cases hx : splitColon s with
      | nil => exact absurd hx h
      | cons a l => simp
    obtain ⟨i', rfl⟩ : ∃ i', i = i' + 1 := ⟨i - 1, by omega⟩
    cases s with
    | nil => exact parse_go_nil_none i' acc
    | cons c cs =>
      cases hd : (c :: cs).dropWhile (fun x => x != ':') with
      | nil =>
        have h1 := splitColon_single_of_dropWhile (c :: cs) hd
        rw [h1] at hf
        obtain ⟨i'', rfl⟩ : ∃ k, i' = k + 1 := ⟨i' - 1, by omega⟩
        have hg : getlineColon (c :: cs) =
            some ((c :: cs).takeWhile (fun x => x != ':'), []) := by
          simp [getlineColon, hd]
        simp only [parse_mac_address_go, hg]
        cases hp : parseOctet ((c :: cs).takeWhile (fun x => x != ':')) with
        | none => rfl
        | some b => exact parse_go_nil_none i'' (b :: acc)
      | cons x rest =>
        have hsc := splitColon_cons_of_dropWhile (c :: cs) x rest hd
        rw [hsc] at hf
        have hg : getlineColon (c :: cs) =
            some ((c :: cs).takeWhile (fun x => x != ':'), rest) := by
          simp [getlineColon, hd]
        simp only [parse_mac_address_go, hg]
        cases hp : parseOctet ((c :: cs).takeWhile (fun x => x != ':')) with
        | none => rfl
        | some b =>
          apply ih rest i' (b :: acc)
          · have hlen2 : (x :: rest).length ≤ (c :: cs).length := by
              rw [← hd]; exact length_dropWhile_le' _ _
            simp only [List.length_cons] at hlen2 hlen ⊢
            omega
          · simp only [List.length_cons] at hf
            omega

theorem parse_mac_valid (os : List (List Char)) (hlen : os.length = 6)
    (hv : ∀ o ∈ os, validOctet o) :
    parse_mac_address (renderMac os) = some (os.map octetVal) := by
  rcases os with _ | ⟨a, os⟩; · simp at hlen
  rcases os with _ | ⟨b, os⟩; · simp at hlen
  rcases os with _ | ⟨c, os⟩; · simp at hlen
  rcases os with _ | ⟨d, os⟩; · simp at hlen
  rcases os with _ | ⟨e, os⟩; · simp at hlen
  rcases os with _ | ⟨f, os⟩; · simp at hlen
  rcases os with _ | ⟨g, os⟩
  case cons.cons.cons.cons.cons.cons.cons => simp at hlen
  have ha := hv a (by simp)
  have hb := hv b (by simp)
  have hcv := hv c (by simp)
  have hdv := hv d (by simp)
  have hev := hv e (by simp)
  have hfv := hv f (by simp)
  have hr : renderMac [a, b, c, d, e, f] =
      a ++ ':' :: (b ++ ':' :: (c ++ ':' :: (d ++ ':' :: (e ++ ':' :: f)))) := by
    simp [renderMac]
  rw [parse_mac_address, hr]
  rw [parse_go_step 5 a _ [] (octetVal a) (validOctet_ne_colon ha) (parseOctet_valid ha)]
  rw [parse_go_step 4 b _ _ (octetVal b) (validOctet_ne_colon hb) (parseOctet_valid hb)]
  rw [parse_go_step 3 c _ _ (octetVal c) (validOctet_ne_colon hcv) (parseOctet_valid hcv)]
  rw [parse_go_step 2 d _ _ (octetVal d) (validOctet_ne_colon hdv) (parseOctet_valid hdv)]
  rw [parse_go_step 1 e _ _ (octetVal e) (validOctet_ne_colon hev) (parseOctet_valid hev)]
  rw [parse_go_last 0 f _ (octetVal f) hfv.1 (validOctet_ne_colon hfv) (parseOctet_valid hfv)]
  simp [parse_mac_address_go]

/-- C6 counterexample: the claim says every malformed device-address string
(wrong octet count or non-hex characters) makes parsing fail, but the string
`aa:bb:cc:dd:ee:ff:00` has seven colon-separated fields — a wrong octet
count, so `isValidMacStr` rejects it — and `parse_mac_address` nevertheless
succeeds, silently ignoring the seventh field. -/
theorem c6_parse_mac_counterexample :
    isValidMacStr
        ['a', 'a', ':', 'b', 'b', ':', 'c', 'c', ':', 'd', 'd', ':',
         'e', 'e', ':', 'f', 'f', ':', '0', '0'] = false ∧
      parse_mac_address
        ['a', 'a', ':', 'b', 'b', ':', 'c', 'c', ':', 'd', 'd', ':',
         'e', 'e', ':', 'f', 'f', ':', '0', '0']
        = some [170, 187, 204, 221, 238, 255] := by
  decide

/-- C6 amended: every valid six-octet colon-hex string parses to exactly the
corresponding byte sequence, and every string with fewer than six
colon-separated fields fails deterministically (so main returns exit
status 1); however, malformed strings are not all rejected — extra fields
beyond the sixth are ignored (see the counterexample), trailing non-hex
characters inside a field are ignored, and out-of-range values are reduced
mod 256. -/
theorem c6_parse_mac_amended :
    (∀ os : List (List Char), os.length = 6 → (∀ o ∈ os, validOctet o) →
      parse_mac_address (renderMac os) = some (os.map octetVal)) ∧
    (∀ s : List Char, (splitColon s).length < 6 →
      parse_mac_address s = none ∧ linuxMacStage s = .error 1) := by
  refine ⟨parse_mac_valid, fun s hf => ?_⟩
  have hnone : parse_mac_address s = none :=
    parse_go_none_of_fields_lt s.length s 6 [] le_rfl hf
  exact ⟨hnone, by simp [linuxMacStage, hnone]⟩

theorem c6_parse_mac_amended_witness :
    parse_mac_address
        (renderMac [['a', 'a'], ['b', 'b'], ['c', 'c'], ['d', 'd'], ['e', 'e'], ['f', 'f']])
      = some
          ([['a', 'a'], ['b', 'b'], ['c', 'c'], ['d', 'd'], ['e', 'e'], ['f', 'f']].map
            octetVal) ∧
    (parse_mac_address ['a', 'a'] = none ∧ linuxMacStage ['a', 'a'] = .error 1) :=
  ⟨c6_parse_mac_amended.1
      [['a', 'a'], ['b', 'b'], ['c', 'c'], ['d', 'd'], ['e', 'e'], ['f', 'f']]
      (by decide) (by decide),
   c6_parse_mac_amended.2 ['a', 'a'] (by decide)⟩

end DartRe

namespace DartRe

/-! ## Decimal rendering used by the CSV writer

`operator<<` on integral values prints an optional minus sign followed by
decimal digits; we model it directly so we can prove that no rendered field
ever contains a comma or a newline. -/

/-- The decimal digit character for `d` (total; callers pass `d < 10`). -/
def digitChar10 (d : Nat) : Char :=
  if d = 0 then '0' else if d = 1 then '1' else if d = 2 then '2'
  else if d = 3 then '3' else if d = 4 then '4' else if d = 5 then '5'
  else if d = 6 then '6' else if d = 7 then '7' else if d = 8 then '8'
  else '9'

/-- Decimal digits of a natural number, most significant first. -/
def natChars (n : Nat) : List Char :=
  if _h : n < 10 then [digitChar10 n]
  else natChars (n / 10) ++ [digitChar10 (n % 10)]
decreasing_by exact Nat.div_lt_self (by omega) (by omega)

/-- Decimal rendering of an integer, as `operator<<` prints it. -/
def intRepr (v : Int) : List Char :=
  if v < 0 then '-' :: natChars v.natAbs else natChars v.toNat

theorem digitChar10_toNat (d : Nat) :
    48 ≤ (digitChar10 d).toNat ∧ (digitChar10 d).toNat ≤ 57 := by
  unfold digitChar10
  split_ifs <;> decide

theorem natChars_toNat (n : Nat) :
    ∀ c ∈ natChars n, 48 ≤ c.toNat ∧ c.toNat ≤ 57 := by
  induction n using Nat.strong_induction_on with
  | _ n ih =>
    intro c hc
    rw [natChars] at hc
    split_ifs at hc with h
    · simp only [List.mem_singleton] at hc
      subst hc
      exact digitChar10_toNat n
    · rw [List.mem_append] at hc
      rcases hc with hc | hc
      · exact ih (n / 10) (Nat.div_lt_self (by omega) (by omega)) c hc
      · simp only [List.mem_singleton] at hc
        subst hc
        exact digitChar10_toNat (n % 10)

theorem intRepr_clean (v : Int) :
    ∀ c ∈ intRepr v, c.toNat ≠ 44 ∧ c.toNat ≠ 10 := by
  intro c hc
  unfold intRepr at hc
  split_ifs at hc with h
  · rcases List.mem_cons.mp hc with hc | hc
    · subst hc; decide
    · have := natChars_toNat v.natAbs c hc
      omega
  · have := natChars_toNat v.toNat c hc
    omega

/-! ## Sample frame and CSV rows (both variants, identical code)

The loop-local `emg_data : std::array<int, 8>`, `ori_data` (4 floats),
`acc_data` and `gyr_data` (3 floats each).  For the row-structure claims
only the count and the rendering of the fields matter; the numeric values
are modelled as integers (stream output of the C++ number types never
contains a comma or newline either). -/

structure SampleFrame where
  emg : Fin 8 → Int
  ori : Fin 4 → Int
  acc : Fin 3 → Int
  gyr : Fin 3 → Int

/-- The fixed 19-column header written right after the sink opens. -/
def headerFields : List (List Char) :=
  ["Timestamp".toList, "EMG1".toList, "EMG2".toList, "EMG3".toList,
   "EMG4".toList, "EMG5".toList, "EMG6".toList, "EMG7".toList, "EMG8".toList,
   "OrientationW".toList, "OrientationX".toList, "OrientationY".toList,
   "OrientationZ".toList,
   "AccX".toList, "AccY".toList, "AccZ".toList,
   "GyroX".toList, "GyroY".toList, "GyroZ".toList]

/-- One data row: the epoch-milliseconds timestamp, 8 EMG values, 4
orientation values, 3 accelerometer values, 3 gyroscope values — exactly
the fields the write in the loop body emits, in that order. -/
def csvRow (ts : Int) (f : SampleFrame) : List (List Char) :=
  intRepr ts ::
    ((List.finRange 8).map (fun i => intRepr (f.emg i)) ++
     (List.finRange 4).map (fun i => intRepr (f.ori i)) ++
     (List.finRange 3).map (fun i => intRepr (f.acc i)) ++
     (List.finRange 3).map (fun i => intRepr (f.gyr i)))

theorem csvRow_length (ts : Int) (f : SampleFrame) : (csvRow ts f).length = 19 := by
  simp [csvRow]

theorem mem_map_intRepr {α : Type} (g : α → Int) (l : List α) (fld : List Char)
    (h : fld ∈ l.map (fun i => intRepr (g i))) : ∃ v, fld = intRepr v := by
  rcases List.mem_map.mp h with ⟨i, _, hi⟩
  exact ⟨g i, hi.symm⟩

theorem csvRow_fields_clean (ts : Int) (f : SampleFrame) :
    ∀ fld ∈ csvRow ts f, ∀ c ∈ fld, c.toNat ≠ 44 ∧ c.toNat ≠ 10 := by
  intro fld hfld
  have hex : ∃ v : Int, fld = intRepr v := by
    rcases List.mem_cons.mp hfld with h | h
    · exact ⟨ts, h⟩
    · rcases List.mem_append.mp h with h | h
      · rcases List.mem_append.mp h with h | h
        · rcases List.mem_append.mp h with h | h
          · exact mem_map_intRepr _ _ _ h
          · exact mem_map_intRepr _ _ _ h
        · exact mem_map_intRepr _ _ _ h
      · exact mem_map_intRepr _ _ _ h
  obtain ⟨v, rfl⟩ := hex
  exact intRepr_clean v

/-! ## The acquisition loop (both variants, main.cpp of each)

```cpp
while (client.connected() && !stop) {
  client.listen();
  watchdog.update();
  auto current_time = std::chrono::steady_clock::now();
  if (duration_cast<milliseconds>(current_time - last_write_time).count() >= 10) {
    long long timestamp = <epoch ms>;
    csv_file << timestamp << "," << emg... << ori... << acc... << gyr... << std::endl;
    last_write_time = current_time;
  }
  if (watchdog.is_timeout()) { throw std::runtime_error("Watchdog timeout"); }
  std::this_thread::sleep_for(std::chrono::milliseconds(1));
}
csv_file.close();
```

Each iteration draws an `AcqInput`: the values the volatile `stop` flag and
`client.connected()` read at the loop head, whether `listen()` throws, the
samples the callbacks deliver during `listen()`, the steady-clock reading
`tA` (used for `watchdog.update` and the write-interval check; the two
source reads are microseconds apart and collapsed), the wall-clock epoch
timestamp of the row, and the steady-clock reading `tB` at the
`is_timeout()` check. -/

structure AcqInput where
  stopNow : Bool
  connectedNow : Bool
  listenThrows : Bool
  emgSample : Option (Fin 8 → Int)
  imuSample : Option ((Fin 4 → Int) × (Fin 3 → Int) × (Fin 3 → Int))
  tA : Nat
  epochMs : Int
  tB : Nat

structure AcqState where
  /-- `client.connected()` as last observed by the loop -/
  connected : Bool
  frame : SampleFrame
  watchdog : ConnectionWatchdog
  lastWrite : Nat
  /-- lines written to the CSV sink so far, each a list of fields -/
  csv : List (List (List Char))

inductive AcqExit
  /-- loop condition false because `client.connected()` was false -/
  | disconnected
  /-- loop condition false because the stop flag was set -/
  | stopped
  /-- an exception left the loop (a throwing `listen()` or the watchdog
  timeout throw); it propagates to the supervisor's catch -/
  | thrown
  /-- model artifact: the input script ended while the loop would continue -/
  | outOfScript

def applyEmg (s : Option (Fin 8 → Int)) (f : SampleFrame) : SampleFrame :=
  match s with
  | none => f
  | some e => { f with emg := e }

def applyImu (s : Option ((Fin 4 → Int) × (Fin 3 → Int) × (Fin 3 → Int)))
    (f : SampleFrame) : SampleFrame :=
  match s with
  | none => f
  | some (o, a, g) => { f with ori := o, acc := a, gyr := g }

def acqLoopGo : List AcqInput → AcqState → AcqExit × AcqState
  | [], st => (.outOfScript, st)
  | inp :: rest, st =>
    if inp.connectedNow then
      if inp.stopNow then (.stopped, { st with connected := true })
      else if inp.listenThrows then (.thrown, { st with connected := true })
      else
        let f2 := applyImu inp.imuSample (applyEmg inp.emgSample st.frame)
        let wd := st.watchdog.update inp.tA
        let st' : AcqState :=
          if inp.tA - st.lastWrite ≥ 10 then
            ⟨true, f2, wd, inp.tA, st.csv ++ [csvRow inp.epochMs f2]⟩
          else
            ⟨true, f2, wd, st.lastWrite, st.csv⟩
        if wd.is_timeout inp.tB then (.thrown, st')
        else acqLoopGo rest st'
    else (.disconnected, { st with connected := false })

/-- One connection episode's writes to its sink: the header row is written
right after the file opens, then the loop appends data rows. -/
def runEpisode (inputs : List AcqInput) (wd0 : ConnectionWatchdog)
    (f0 : SampleFrame) (t0 : Nat) : AcqExit × AcqState :=
  acqLoopGo inputs ⟨true, f0, wd0, t0, [headerFields]⟩

end DartRe

namespace DartRe

theorem acqLoopGo_csv_shape :
    ∀ (inputs : List AcqInput) (st : AcqState), ∃ rows,
      (acqLoopGo inputs st).2.csv = st.csv ++ rows ∧
      ∀ r ∈ rows, ∃ ts f, r = csvRow ts f := by
  intro inputs
  induction inputs with
  | nil => intro st; exact ⟨[], by simp [acqLoopGo], by simp⟩
  | cons inp rest ih =>
    intro st
    by_cases hc : inp.connectedNow
    · by_cases hs : inp.stopNow
      · exact ⟨[], by simp [acqLoopGo, hc, hs], by simp⟩
      · by_cases hl : inp.listenThrows
        · exact ⟨[], by simp [acqLoopGo, hc, hs, hl], by simp⟩
        · by_cases hw : inp.tA - st.lastWrite ≥ 10
          · by_cases ht : (st.watchdog.update inp.tA).is_timeout inp.tB
            · refine ⟨[csvRow inp.epochMs
                  (applyImu inp.imuSample (applyEmg inp.emgSample st.frame))], ?_, ?_⟩
              · simp [acqLoopGo, hc, hs, hl, hw, ht]
              · intro r hr
                simp only [List.mem_singleton] at hr
                exact ⟨_, _, hr⟩
            · obtain ⟨rows, h1, h2⟩ := ih
                ⟨true, applyImu inp.imuSample (applyEmg inp.emgSample st.frame),
                 st.watchdog.update inp.tA, inp.tA,
                 st.csv ++ [csvRow inp.epochMs
                   (applyImu inp.imuSample (applyEmg inp.emgSample st.frame))]⟩
              refine ⟨csvRow inp.epochMs
                  (applyImu inp.imuSample (applyEmg inp.emgSample st.frame)) :: rows,
                ?_, ?_⟩
              · simp only [acqLoopGo, hc, hs, hl, hw, ht, if_true, if_false,
                  Bool.false_eq_true, ge_iff_le, if_pos, if_neg] at h1 ⊢
                simp only [h1]
                simp
              · intro r hr
                rcases List.mem_cons.mp hr with hr | hr
                · exact ⟨_, _, hr⟩
                · exact h2 r hr
          · by_cases ht : (st.watchdog.update inp.tA).is_timeout inp.tB
            · exact ⟨[], by simp [acqLoopGo, hc, hs, hl, hw, ht], by simp⟩
            · obtain ⟨rows, h1, h2⟩ := ih
                ⟨true, applyImu inp.imuSample (applyEmg inp.emgSample st.frame),
                 st.watchdog.update inp.tA, st.lastWrite, st.csv⟩
              refine ⟨rows, ?_, h2⟩
              simp only [acqLoopGo, hc, hs, hl, hw, ht, if_true, if_false,
                Bool.false_eq_true, ge_iff_le, if_pos, if_neg] at h1 ⊢
              simpa using h1
    · exact ⟨[], by simp [acqLoopGo, hc], by simp⟩

/-- C9: for every connection episode (whatever the per-iteration inputs),
the sink contents produced by the episode are exactly one 19-column header
row followed only by data rows of exactly 19 fields, none of which contains
a comma or a newline; and the loop only ever appends to the sink —
whatever was in the sink before any stretch of iterations is a prefix of
what is in it afterwards. -/
theorem c9_csv_sink_wellformed :
    ∀ (inputs : List AcqInput) (wd0 : ConnectionWatchdog) (f0 : SampleFrame) (t0 : Nat),
      (∃ rows, (runEpisode inputs wd0 f0 t0).2.csv = headerFields :: rows ∧
        ∀ r ∈ rows, r.length = 19 ∧
          ∀ fld ∈ r, ∀ c ∈ fld, c.toNat ≠ 44 ∧ c.toNat ≠ 10) ∧
      headerFields.length = 19 ∧
      (∀ st : AcqState, st.csv <+: (acqLoopGo inputs st).2.csv) := by
  intro inputs wd0 f0 t0
  refine ⟨?_, by simp [headerFields], fun st => ?_⟩
  · obtain ⟨rows, h1, h2⟩ := acqLoopGo_csv_shape inputs ⟨true, f0, wd0, t0, [headerFields]⟩
    refine ⟨rows, by simpa [runEpisode] using h1, fun r hr => ?_⟩
    obtain ⟨ts, f, rfl⟩ := h2 r hr
    exact ⟨csvRow_length ts f, csvRow_fields_clean ts f⟩
  · obtain ⟨rows, h1, _⟩ := acqLoopGo_csv_shape inputs st
    exact ⟨rows, h1.symm⟩

end DartRe

namespace DartRe

/-! ## The supervisor loop (Linux variant, main.cpp lines 155-278)

```cpp
while (!stop) {
  try {
    if (!client.connected()) { client.connect(address, connection_timeout); }
    if (!client.connected()) { log; sleep(5 s); continue; }
    <filename>; std::ofstream csv_file(filename, std::ios::app);
    if (!csv_file.is_open()) { log; return 1; }
    <header>; setSleepMode; setMode; <register callbacks>;
    <acquisition loop>;
    csv_file.close();
    if (!client.connected()) { log; }
  } catch (const std::exception& e) {
    log; sleep(30 s);
    try { reconnect(client, address); } catch (const std::exception& e) { log; }
  }
}
log("Disconnecting...");
try { client.disconnect(); } catch (...) { log("Program ended abnormally."); }
log("Program ended normally.");
return 0;
```

One `LinuxWorld` drives one iteration of the outer loop: the stop flag as
read by the loop guard, the outcome of the initial connect when invoked
(`connectOk = false` means it throws; `connectedAfter` is what
`client.connected()` reports after a non-throwing connect), whether the
CSV sink opens, the acquisition-loop inputs, the episode's initial sample
frame and `last_write_time`, and the script for `reconnect` in the catch
handler.  `setSleepMode`/`setMode` and callback registration are modelled
total here (an exception from them reaches the same catch handler as a
thrown acquisition loop). -/

structure SupSt where
  client : Client
  wd : ConnectionWatchdog

structure LinuxWorld where
  stopNow : Bool
  connectOk : Bool
  connectedAfter : Bool
  csvOpenOk : Bool
  acqInputs : List AcqInput
  frame0 : SampleFrame
  t0 : Nat
  recScript : List Bool

/-- The try block of one supervisor iteration.  `.error s'` is an
exception reaching the catch handler; `.ok (some n, s')` is `return n`
from inside the loop; `.ok (none, s')` falls through to the next
iteration. -/
def linuxTryBody (w : LinuxWorld) (s : SupSt) : Except SupSt (Option Nat × SupSt) :=
  if !s.client.connected && !w.connectOk then
    .error s
  else
    let cl1 : Client := if s.client.connected then s.client else ⟨w.connectedAfter⟩
    if !cl1.connected then
      -- "Connection failed. Retrying in 5 seconds..."; sleep; continue
      .ok (none, { s with client := cl1 })
    else if !w.csvOpenOk then
      -- "Error: Unable to open CSV file": return 1
      .ok (some 1, { s with client := cl1 })
    else
      match runEpisode w.acqInputs s.wd w.frame0 w.t0 with
      | (ex, ast) =>
        let s' : SupSt := { client := ⟨ast.connected⟩, wd := ast.watchdog }
        match ex with
        | .thrown => .error s'
        | _ => .ok (none, s')

/-- One supervisor iteration, catch handler included: every exception from
the body is logged, the supervisor sleeps 30 s, calls `reconnect` inside
its own try/catch (a reconnect failure, the exhaustion error included, is
only logged), and the outer loop continues. -/
def linuxIterBody (w : LinuxWorld) (s : SupSt) : Option Nat × SupSt :=
  match linuxTryBody w s with
  | .ok r => r
  | .error s' =>
    let r := reconnect w.stopNow s'.client w.recScript
    (none, { s' with client := r.state.client })

inductive SupResult
  /-- the loop guard `!stop` failed: control proceeds to shutdown -/
  | stopped (s : SupSt)
  /-- a `return n` from inside the loop ended the process -/
  | exited (code : Nat) (s : SupSt)
  /-- model artifact: the world script ended while the loop would continue -/
  | outOfScript (s : SupSt)

def linuxSupervisorGo : List LinuxWorld → SupSt → SupResult
  | [], s => .outOfScript s
  | w :: ws, s =>
    if w.stopNow then .stopped s
    else
      match linuxIterBody w s with
      | (some n, s') => .exited n s'
      | (none, s') => linuxSupervisorGo ws s'

inductive LogMsg
  | endedAbnormally
  | endedNormally
deriving DecidableEq, Repr

/-- Shutdown path of the Linux variant (lines 268-278): the final
disconnect sits in its own try/catch whose handler only logs; the function
then logs and returns 0 whatever happened. -/
def linuxShutdown (disconnectThrows : Bool) : Nat × List LogMsg :=
  (0, if disconnectThrows then [.endedAbnormally, .endedNormally] else [.endedNormally])

/-- Shutdown path of the Sensor variant (lines 191-194): `client.disconnect()`
is NOT guarded, so a throwing disconnect propagates out of `main`
(`.error ()`, abnormal termination) instead of reaching `return 0`. -/
def sensorShutdown (disconnectThrows : Bool) : Except Unit Nat :=
  if disconnectThrows then .error () else .ok 0

/-- End-to-end exit status of the Linux variant: `none` is the model
artifact of the world script running out. -/
def linuxMain (worlds : List LinuxWorld) (s0 : SupSt) (finalDisconnectThrows : Bool) :
    Option Nat :=
  match linuxSupervisorGo worlds s0 with
  | .stopped _ => some (linuxShutdown finalDisconnectThrows).1
  | .exited n _ => some n
  | .outOfScript _ => none

/-- An all-zero sample frame for concrete instantiations. -/
def zeroFrame : SampleFrame := ⟨fun _ => 0, fun _ => 0, fun _ => 0, fun _ => 0⟩

/-- A supervisor iteration whose initial connect throws. -/
def failWorld : LinuxWorld := ⟨false, false, false, true, [], zeroFrame, 0, []⟩

/-- A supervisor iteration at which the stop flag is observed set. -/
def stopWorld : LinuxWorld := ⟨true, true, true, true, [], zeroFrame, 0, []⟩

end DartRe

namespace DartRe

/-- C2 counterexample: in the Sensor variant, exhausting the connect-retry
counter (five consecutive failing connects, here the empty script) makes
`main` return exit status 1 — the process exits on exhaustion instead of
looping again. -/
theorem c2_sensor_exhaustion_exits_counterexample :
    (sensorConnectPhase false ⟨false⟩ []).1 = some 1 := by decide

/-- C2 amended: in the Linux variant the terminal exhaustion error of
`reconnect` is caught by the supervisor's catch handler, which logs it and
lets the outer loop continue — an iteration whose body throws never
produces an exit code, whatever the reconnect script does.  In the Sensor
variant, however, ending the connect-retry loop still disconnected (as
exhaustion does) makes the process return exit status 1. -/
theorem c2_exhaustion_handling_amended :
    (∀ (w : LinuxWorld) (s s' : SupSt), linuxTryBody w s = .error s' →
      (linuxIterBody w s).1 = none) ∧
    (∀ (stop : Bool) (cl : Client) (script : List Bool),
      (sensorConnectPhase stop cl script).2.client.connected = false →
      (sensorConnectPhase stop cl script).1 = some 1) := by
  constructor
  · intro w s s' h
    simp [linuxIterBody, h]
  · intro stop cl script h
    by_cases hcon :
      (connectLoopGo stop SENSOR_MAX_RECONNECT_ATTEMPTS ⟨cl, []⟩ script).client.connected
    · simp only [sensorConnectPhase, hcon, if_true] at h
      simp at h
    · simp [sensorConnectPhase, hcon]

theorem c2_exhaustion_handling_amended_witness :
    (linuxIterBody failWorld ⟨⟨false⟩, ⟨60, 0⟩⟩).1 = none ∧
    (sensorConnectPhase false ⟨false⟩ []).1 = some 1 :=
  ⟨c2_exhaustion_handling_amended.1 failWorld ⟨⟨false⟩, ⟨60, 0⟩⟩ ⟨⟨false⟩, ⟨60, 0⟩⟩ rfl,
   c2_exhaustion_handling_amended.2 false ⟨false⟩ [] (by decide)⟩

/-- C7 counterexample: in the Sensor variant the final `client.disconnect()`
after the loop is not wrapped in a try/catch, so a disconnect that throws
propagates out of `main` (abnormal termination) and the process does not
terminate with exit status 0. -/
theorem c7_sensor_final_disconnect_counterexample :
    sensorShutdown true = .error () ∧ sensorShutdown true ≠ .ok 0 :=
  ⟨rfl, fun h => by simp [sensorShutdown] at h⟩

/-- C7 amended: in the Linux variant, once the stop flag is observed the
session is disconnected one final time, an error during that disconnect is
only logged ("Program ended abnormally.") and never propagated, and the
process exits with status 0 in either case; the Sensor variant's final
disconnect is unguarded (see the counterexample). -/
theorem c7_shutdown_amended :
    (∀ b : Bool, (linuxShutdown b).1 = 0 ∧
      (linuxShutdown b).2 =
        (if b then [LogMsg.endedAbnormally, .endedNormally] else [.endedNormally])) ∧
    (∀ (worlds : List LinuxWorld) (s0 : SupSt) (b : Bool) (s' : SupSt),
      linuxSupervisorGo worlds s0 = .stopped s' → linuxMain worlds s0 b = some 0) := by
  constructor
  · intro b
    exact ⟨rfl, rfl⟩
  · intro worlds s0 b s' h
    simp [linuxMain, h, linuxShutdown]

theorem c7_shutdown_amended_witness :
    ((linuxShutdown true).1 = 0 ∧
      (linuxShutdown true).2 =
        (if true then [LogMsg.endedAbnormally, .endedNormally] else [.endedNormally])) ∧
    linuxMain [stopWorld] ⟨⟨false⟩, ⟨60, 0⟩⟩ true = some 0 :=
  ⟨c7_shutdown_amended.1 true,
   c7_shutdown_amended.2 [stopWorld] ⟨⟨false⟩, ⟨60, 0⟩⟩ true ⟨⟨false⟩, ⟨60, 0⟩⟩ rfl⟩

/-- C5 amended: the stop flag is checked at the top of the outer supervisor
loop (a set flag ends the loop with no iteration run), at the top of the
acquisition loop (a set flag exits at once: the sink is not written and the
rest of the input script is never consulted), and in the Sensor variant's
inline connect-retry loop condition (a set flag makes the loop do nothing).
The Linux variant's `reconnect` retry loop, however, does not check the
stop flag (see the counterexample): once inside it, attempts continue. -/
theorem c5_stop_checked_amended :
    (∀ (w : LinuxWorld) (ws : List LinuxWorld) (s : SupSt), w.stopNow = true →
      linuxSupervisorGo (w :: ws) s = .stopped s) ∧
    (∀ (inp : AcqInput) (rest rest' : List AcqInput) (st : AcqState),
      inp.stopNow = true →
      (acqLoopGo (inp :: rest) st).2.csv = st.csv ∧
      acqLoopGo (inp :: rest) st = acqLoopGo (inp :: rest') st) ∧
    (∀ (fuel : Nat) (st : RunSt) (script : List Bool),
      connectLoopGo true fuel st script = st) := by
  refine ⟨?_, ?_, ?_⟩
  · intro w ws s h
    simp [linuxSupervisorGo, h]
  · intro inp rest rest' st h
    by_cases hc : inp.connectedNow <;> simp [acqLoopGo, h, hc]
  · intro fuel st script
    cases fuel with
    | zero => rfl
    | succ n => simp [connectLoopGo]

theorem c5_stop_checked_amended_witness :
    linuxSupervisorGo [stopWorld] ⟨⟨false⟩, ⟨60, 0⟩⟩ = .stopped ⟨⟨false⟩, ⟨60, 0⟩⟩ ∧
    ((acqLoopGo [⟨true, true, false, none, none, 0, 0, 0⟩]
        ⟨true, zeroFrame, ⟨60, 0⟩, 0, []⟩).2.csv = [] ∧
      acqLoopGo [⟨true, true, false, none, none, 0, 0, 0⟩]
          ⟨true, zeroFrame, ⟨60, 0⟩, 0, []⟩ =
        acqLoopGo [⟨true, true, false, none, none, 0, 0, 0⟩]
          ⟨true, zeroFrame, ⟨60, 0⟩, 0, []⟩) ∧
    connectLoopGo true 5 ⟨⟨false⟩, []⟩ [] = ⟨⟨false⟩, []⟩ :=
  ⟨c5_stop_checked_amended.1 stopWorld [] ⟨⟨false⟩, ⟨60, 0⟩⟩ rfl,
   c5_stop_checked_amended.2.1 ⟨true, true, false, none, none, 0, 0, 0⟩ [] []
     ⟨true, zeroFrame, ⟨60, 0⟩, 0, []⟩ rfl,
   c5_stop_checked_amended.2.2 5 ⟨⟨false⟩, []⟩ []⟩

end DartRe
